import Mathlib

/-!
Verification development for the `q-localfiles` module (`local.player.js`).

The module is shallow-embedded below:

* pure string helpers (`cX.trim`, JS `encodeURIComponent` / `decodeURIComponent`,
  Node `path.normalize`, `path.extname`, JS `parseInt`, the JS `||` fallback on
  strings and numbers) are translated into executable Lean functions;
* the filesystem (`fsX.exists`), the external `ffprobe` binary
  (`cpX.execFileInPromise`), the JSON parser (`cX.tryJsonParse`), the
  extension table (`fsX.fileExtType`) and the JS `Date` year extraction are
  external collaborators and enter as explicit function parameters;
* promise results are embedded as `Except` / ordinary values, a synchronous
  JS `throw` is an explicit error constructor, and the probe cache with its
  single clearing timer is explicit state passed through the functions.

String computations are carried out on `List Char` (via `String.data`) so
that every definition evaluates by kernel reduction.
-/

/-! ## JS string primitives -/

/-- JS whitespace as used by `String.prototype.trim` (ASCII subset relevant here). -/
def isJsWhitespace (c : Char) : Bool :=
  c == ' ' || c == '\t' || c == '\n' || c == '\r' || c == '\x0b' || c == '\x0c'

/-- Drop JS whitespace from both ends of a character list. -/
def trimChars (l : List Char) : List Char :=
  ((l.dropWhile isJsWhitespace).reverse.dropWhile isJsWhitespace).reverse

/-- `cX.trim(x, true)`: trim the string; a non-string or a string that trims to
empty throws a TypeError, embedded as `none`. -/
def jsTrim (s : String) : Option String :=
  let t := trimChars s.data
  if t == [] then none else some (String.mk t)

/-- Value of one hex digit, `none` for a non-hex character. -/
def hexDigitVal (c : Char) : Option Nat :=
  if '0' ≤ c ∧ c ≤ '9' then some (c.toNat - 48)
  else if 'A' ≤ c ∧ c ≤ 'F' then some (c.toNat - 55)
  else if 'a' ≤ c ∧ c ≤ 'f' then some (c.toNat - 87)
  else none

/-- Byte value of a two-hex-digit pair. -/
def hexPairByte (h1 h2 : Char) : Option Nat := do
  let a ← hexDigitVal h1
  let b ← hexDigitVal h2
  pure (a * 16 + b)

/-- Upper-case hex digit for `n < 16`, as emitted by JS percent-encoding. -/
def toHexDigitUpper (n : Nat) : Char :=
  if n < 10 then Char.ofNat (48 + n) else Char.ofNat (55 + n)

/-- UTF-8 bytes of one code point. -/
def utf8Bytes (c : Char) : List Nat :=
  let n := c.toNat
  if n < 0x80 then [n]
  else if n < 0x800 then [0xC0 + n / 0x40, 0x80 + n % 0x40]
  else if n < 0x10000 then
    [0xE0 + n / 0x1000, 0x80 + (n / 0x40) % 0x40, 0x80 + n % 0x40]
  else
    [0xF0 + n / 0x40000, 0x80 + (n / 0x1000) % 0x40, 0x80 + (n / 0x40) % 0x40,
      0x80 + n % 0x40]

/-- Characters `encodeURIComponent` leaves unescaped: ASCII alphanumerics and
`- _ . ! ~ * ' ( )` (the apostrophe is written by code point). -/
def isUriUnreserved (c : Char) : Bool :=
  c.isAlpha || c.isDigit ||
  c == '-' || c == '_' || c == '.' || c == '!' || c == '~' || c == '*' ||
  c == Char.ofNat 39 || c == '(' || c == ')'

/-- JS `encodeURIComponent`: every reserved character (including `/`) is
percent-encoded from its UTF-8 bytes, upper-case hex. -/
def encodeURIComponent (s : String) : String :=
  String.mk (s.data.flatMap fun c =>
    if isUriUnreserved c then [c]
    else (utf8Bytes c).flatMap fun b =>
      ['%', toHexDigitUpper (b / 16), toHexDigitUpper (b % 16)])

/-- First pass of JS `decodeURIComponent`: replace each `%HH` escape by its
byte, keep other characters; a `%` not followed by two hex digits is a
URIError (`none`). -/
def pctTokens : List Char → Option (List (Sum Char Nat))
  | [] => some []
  | '%' :: h1 :: h2 :: rest => do
      let b ← hexPairByte h1 h2
      let t ← pctTokens rest
      pure (Sum.inr b :: t)
  | '%' :: _ => none
  | c :: rest => do
      let t ← pctTokens rest
      pure (Sum.inl c :: t)

/-- Second pass of JS `decodeURIComponent`: escaped bytes must form valid
UTF-8 sequences (continuation bytes themselves escaped); anything else is a
URIError (`none`). Unescaped characters stand for themselves. -/
def decodeTokens : List (Sum Char Nat) → Option (List Char)
  | [] => some []
  | Sum.inl c :: rest => (decodeTokens rest).map (c :: ·)
  | Sum.inr b :: rest =>
    if b < 0x80 then (decodeTokens rest).map (Char.ofNat b :: ·)
    else if b < 0xC2 then none
    else if b < 0xE0 then
      match rest with
      | Sum.inr b2 :: rest2 =>
        if 0x80 ≤ b2 ∧ b2 < 0xC0 then
          (decodeTokens rest2).map (Char.ofNat ((b - 0xC0) * 0x40 + (b2 - 0x80)) :: ·)
        else none
      | _ => none
    else if b < 0xF0 then
      match rest with
      | Sum.inr b2 :: Sum.inr b3 :: rest2 =>
        if 0x80 ≤ b2 ∧ b2 < 0xC0 ∧ 0x80 ≤ b3 ∧ b3 < 0xC0 then
          let cp := (b - 0xE0) * 0x1000 + (b2 - 0x80) * 0x40 + (b3 - 0x80)
          if 0x800 ≤ cp ∧ ¬ (0xD800 ≤ cp ∧ cp ≤ 0xDFFF) then
            (decodeTokens rest2).map (Char.ofNat cp :: ·)
          else none
        else none
      | _ => none
    else if b ≤ 0xF4 then
      match rest with
      | Sum.inr b2 :: Sum.inr b3 :: Sum.inr b4 :: rest2 =>
        if 0x80 ≤ b2 ∧ b2 < 0xC0 ∧ 0x80 ≤ b3 ∧ b3 < 0xC0 ∧ 0x80 ≤ b4 ∧ b4 < 0xC0 then
          let cp := (b - 0xF0) * 0x40000 + (b2 - 0x80) * 0x1000 +
            (b3 - 0x80) * 0x40 + (b4 - 0x80)
          if 0x10000 ≤ cp ∧ cp ≤ 0x10FFFF then
            (decodeTokens rest2).map (Char.ofNat cp :: ·)
          else none
        else none
      | _ => none
    else none

/-- JS `decodeURIComponent`; `none` embeds a thrown URIError. -/
def decodeURIComponent (s : String) : Option String :=
  ((pctTokens s.data).bind decodeTokens).map String.mk

/-! ## Node `path.normalize` (POSIX) -/

/-- Split a character list on a separator character (keeping empty pieces,
like JS `String.prototype.split`). -/
def splitChar (sep : Char) : List Char → List Char → List (List Char)
  | [], acc => [acc.reverse]
  | c :: rest, acc =>
    if c == sep then acc.reverse :: splitChar sep rest []
    else splitChar sep rest (c :: acc)

/-- Join pieces with a separator character. -/
def joinSep (sep : Char) : List (List Char) → List Char
  | [] => []
  | [x] => x
  | x :: xs => x ++ sep :: joinSep sep xs

/-- Does the list end with the given character? -/
def lastIs (l : List Char) (c : Char) : Bool :=
  match l.getLast? with
  | some d => d == c
  | none => false

/-- One step of POSIX path normalization over a reversed segment stack. -/
def normStep (isAbs : Bool) (stack : List (List Char)) (seg : List Char) :
    List (List Char) :=
  if seg == [] || seg == ['.'] then stack
  else if seg == ['.', '.'] then
    match stack with
    | [] => if isAbs then [] else [['.', '.']]
    | top :: rest => if top == ['.', '.'] then seg :: top :: rest else rest
  else seg :: stack

/-- `fsX.path.normalize` (Node's POSIX `path.normalize`): resolves `.` and
`..`, collapses duplicate separators, keeps one trailing separator, and maps
the empty string to `.`. -/
def pathNormalize (p : String) : String :=
  if p.data == [] then "."
  else
    let chars := p.data
    let isAbs : Bool := chars.take 1 == ['/']
    let hasTrail : Bool := lastIs chars '/' && decide (1 < chars.length)
    let stack := (splitChar '/' chars []).foldl (normStep isAbs) []
    let body := joinSep '/' stack.reverse
    let res := if isAbs then '/' :: body else if body == [] then ['.'] else body
    let res2 := if hasTrail && !(lastIs res '/') then res ++ ['/'] else res
    String.mk res2

/-! ## URI Codec (`toPath` / `toUri`) -/

/-- Errors thrown inside the codec: `cX.trim` throws a TypeError, JS
decoding throws a URIError. -/
inductive CodecErr
  | typeErr
  | uriErr
deriving DecidableEq, Repr

/-- `toPath(x)` (source lines 74-87): trim (TypeError on empty/non-string);
when the first six characters are `file:/`, drop the five characters `file:`
and percent-decode the rest; always normalize the result. -/
def toPath (x : String) : Except CodecErr String :=
  match jsTrim x with
  | none => .error .typeErr
  | some path =>
    if path.data.take 6 == "file:/".data then
      match decodeURIComponent (String.mk (path.data.drop 5)) with
      | none => .error .uriErr
      | some d => .ok (pathNormalize d)
    else .ok (pathNormalize path)

/-- `toUri(x)` (source lines 97-106): trim; when the string does not start
with `file:/`, percent-encode it with `encodeURIComponent` and prepend
`file:`; otherwise return it unchanged. -/
def toUri (x : String) : Except CodecErr String :=
  match jsTrim x with
  | none => .error .typeErr
  | some uri =>
    if uri.data.take 6 == "file:/".data then .ok uri
    else .ok ("file:" ++ encodeURIComponent uri)

/-- C1: The round-trip law fails on the code. `toUri` uses component-style
percent-encoding, which escapes `/` as `%2F`; hence `toUri "/a"` is
`file:%2Fa`, which `toPath` does not recognize as `file:/`-prefixed and
returns unchanged instead of `/a = normalize "/a"`, and in the other
direction `toUri (toPath "file:/a")` is `file:%2Fa ≠ file:/a`. -/
theorem c1_roundtrip_fails :
    toUri "/a" = .ok "file:%2Fa" ∧
    toPath "file:%2Fa" = .ok "file:%2Fa" ∧
    pathNormalize "/a" = "/a" ∧
    "file:%2Fa" ≠ "/a" ∧
    toPath "file:/a" = .ok "/a" ∧
    "file:%2Fa" ≠ "file:/a" := by
  exact ⟨rfl, rfl, rfl, by decide, rfl, by decide⟩

/-! ## Existence/Type Checker and `canPlayUri` -/

/-- Kind of a filesystem entry. -/
inductive FileKind
  | file
  | folder
deriving DecidableEq, Repr

/-- The filesystem is an external collaborator: a partial map from path
strings to the kind of the entry living there. `fsX.exists(path, kind)` in
non-throwing mode is the boolean `fsExistsB`; in `'throw'` mode a `false`
result is a thrown error at the call site. -/
def fsExistsB (fs : String → Option FileKind) (path : String) (k : FileKind) : Bool :=
  fs path == some k

/-- Outcome of `canPlayUri` (source lines 121-143): the promise resolves to a
boolean, or rejects with the TypeError, or rejects with an `EFAULT`-coded
error annotated (via `err.somewhere(uri)`) with the offending uri. -/
inductive CPUResult
  | resolved (b : Bool)
  | rejectedType
  | rejectedEFault (annotatedUri : String)
deriving DecidableEq, Repr

/-- `canPlayUri(uri)` (source lines 121-143): trim (TypeError rejection on
failure); for input not starting with `file:/`, return the non-throwing
existence check when the input starts with `/`, else `false`; for
`file:/`-prefixed input, run the throwing existence check on the decoded
path and map any non-TypeError throw to an `EFAULT` rejection. -/
def canPlayUri (fs : String → Option FileKind) (uri : String) : CPUResult :=
  match jsTrim uri with
  | none => .rejectedType
  | some u =>
    if u.data.take 6 = "file:/".data then
      match toPath u with
      | .error .typeErr => .rejectedType
      | .error .uriErr => .rejectedEFault u
      | .ok p => if fsExistsB fs p .file then .resolved true else .rejectedEFault u
    else
      if u.data.take 1 = "/".data ∧ fsExistsB fs u .file = true then .resolved true
      else .resolved false

/-- C5: `canPlayUri` classifies inputs as the spec states: a trimmed
non-`file:/` input starting with `/` resolves to the boolean of the
non-throwing existence check (never rejects), and a `file:/`-prefixed input
resolves to `true` when the decoded path is a file and otherwise rejects
with an `EFAULT` error annotated with the uri. -/
theorem c5_canPlayUri_classification (fs : String → Option FileKind) (u : String)
    (h : jsTrim u = some u) :
    (u.data.take 6 ≠ "file:/".data → u.data.take 1 = "/".data →
      canPlayUri fs u = .resolved (fsExistsB fs u .file))
    ∧ (u.data.take 6 = "file:/".data → ∀ p, toPath u = .ok p →
        (fs p = some .file → canPlayUri fs u = .resolved true)
        ∧ (fs p ≠ some .file → canPlayUri fs u = .rejectedEFault u)) := by
  constructor
  · intro h6 h1
    by_cases hex : fsExistsB fs u .file
    · simp [canPlayUri, h, h6, h1, hex]
    · simp [canPlayUri, h, h6, h1, hex]
  · intro h6 p hp
    constructor
    · intro hfile
      simp [canPlayUri, h, h6, hp, fsExistsB, hfile]
    · intro hnot
      have hex : fsExistsB fs p .file = false := by
        simp [fsExistsB]
        intro hc
        exact hnot hc
      simp [canPlayUri, h, h6, hp, hex]

/-- Sample filesystem: one audio file and the root folder. -/
def sampleFs : String → Option FileKind :=
  fun s =>
    if s = "/music/a.mp3" then some .file
    else if s = "/" then some .folder
    else none

/-- Witness for C5: on `sampleFs`, an existing `file:` uri resolves to
`true`, a missing one rejects with `EFAULT`, and a bare missing path
resolves to `false`. -/
theorem c5_canPlayUri_classification_witness :
    canPlayUri sampleFs "file:/music/a.mp3" = .resolved true
    ∧ canPlayUri sampleFs "file:/tmp/none.mp3" = .rejectedEFault "file:/tmp/none.mp3"
    ∧ canPlayUri sampleFs "/tmp/none.mp3" = .resolved false := by
  refine ⟨?_, ?_, ?_⟩
  · exact ((c5_canPlayUri_classification sampleFs "file:/music/a.mp3" rfl).2
      rfl "/music/a.mp3" rfl).1 rfl
  · exact ((c5_canPlayUri_classification sampleFs "file:/tmp/none.mp3" rfl).2
      rfl "/tmp/none.mp3" rfl).2 (by decide)
  · have := (c5_canPlayUri_classification sampleFs "/tmp/none.mp3" rfl).1
      (by decide) rfl
    simpa [sampleFs, fsExistsB] using this

/-- C9: for every `file:/`-prefixed uri whose decoded path is an existing
folder, the throwing existence check (which demands kind `file`) fails, so
`canPlayUri` rejects with an `EFAULT`-coded error instead of resolving
`false`; in particular this covers the root sentinel `file:/`. -/
theorem c9_canPlayUri_folder_rejects (fs : String → Option FileKind)
    (u p : String) (h : jsTrim u = some u)
    (h6 : u.data.take 6 = "file:/".data) (hp : toPath u = .ok p)
    (hf : fs p = some .folder) :
    canPlayUri fs u = .rejectedEFault u := by
  exact ((c5_canPlayUri_classification fs u h).2 h6 p hp).2 (by simp [hf])

/-- Witness for C9: on `sampleFs` the root sentinel `file:/` decodes to the
existing folder `/` and `canPlayUri` rejects with `EFAULT`. -/
theorem c9_canPlayUri_folder_rejects_witness :
    canPlayUri sampleFs "file:/" = .rejectedEFault "file:/" := by
  exact c9_canPlayUri_folder_rejects sampleFs "file:/" "/" rfl rfl rfl rfl

/-! ## `getStream` -/

/-- The `track` argument of `getStream` as a JS value: a falsy value, a
truthy non-object, or an object with optional `type` and `contents`
properties. -/
inductive JsTrackArg
  | missing
  | truthyNonObject
  | obj (tag : Option String) (contents : Option String)

/-- Outcome of `getStream` (source lines 186-198): a synchronous TypeError
throw, the returned path, or an `ESEQ` rejection carrying its guidance. -/
inductive GetStreamResult
  | thrownTypeError
  | path (p : String)
  | rejectedESEQ (handling : String)
deriving DecidableEq, Repr

/-- Remediation guidance attached by `getStream` (source line 196). -/
def getStreamGuidance : String := "call getUriDetails() before getStream()"

/-- `getStream(track)` (source lines 186-198): a falsy argument, a
non-object, or an object not tagged `type:"track"` throws a TypeError;
otherwise the throwing existence check runs on `track.contents` and a
failure is wrapped into an `ESEQ` rejection, while success returns the
path. -/
def getStream (fs : String → Option FileKind) (track : JsTrackArg) : GetStreamResult :=
  match track with
  | .missing => .thrownTypeError
  | .truthyNonObject => .thrownTypeError
  | .obj tag contents =>
    if tag ≠ some "track" then .thrownTypeError
    else
      match contents with
      | none => .rejectedESEQ getStreamGuidance
      | some c =>
        if fsExistsB fs c .file then .path c else .rejectedESEQ getStreamGuidance

/-- C8: `getStream` throws a type error for a missing argument, a
non-object, or an object not tagged `type:"track"`; for a track object
whose contents path exists as a file it returns that path; when the path
does not exist it rejects with `ESEQ`. -/
theorem c8_getStream_contract (fs : String → Option FileKind) :
    getStream fs .missing = .thrownTypeError
    ∧ getStream fs .truthyNonObject = .thrownTypeError
    ∧ (∀ tag c, tag ≠ some "track" → getStream fs (.obj tag c) = .thrownTypeError)
    ∧ (∀ c, fs c = some .file →
        getStream fs (.obj (some "track") (some c)) = .path c)
    ∧ (∀ c, fs c = none →
        getStream fs (.obj (some "track") (some c)) = .rejectedESEQ getStreamGuidance) := by
  refine ⟨rfl, rfl, ?_, ?_, ?_⟩
  · intro tag c htag
    simp [getStream, htag]
  · intro c hc
    simp [getStream, fsExistsB, hc]
  · intro c hc
    simp [getStream, fsExistsB, hc]

/-- Witness for C8: on `sampleFs`, a valid track for an existing path
returns the path, a valid track for a missing path rejects with `ESEQ`,
and a wrongly tagged object throws. -/
theorem c8_getStream_contract_witness :
    getStream sampleFs (.obj (some "track") (some "/music/a.mp3")) = .path "/music/a.mp3"
    ∧ getStream sampleFs (.obj (some "track") (some "/music/b.mp3"))
        = .rejectedESEQ getStreamGuidance
    ∧ getStream sampleFs (.obj (some "folder") (some "/music/a.mp3")) = .thrownTypeError := by
  refine ⟨?_, ?_, ?_⟩
  · exact (c8_getStream_contract sampleFs).2.2.2.1 "/music/a.mp3" rfl
  · exact (c8_getStream_contract sampleFs).2.2.2.2 "/music/b.mp3" rfl
  · exact (c8_getStream_contract sampleFs).2.2.1 (some "folder") (some "/music/a.mp3")
      (by decide)

/-! ## JS `parseInt` and the JS falsy fallback -/

/-- Digit value of a character in the given radix. -/
def digitValRadix (radix : Nat) (c : Char) : Option Nat :=
  match hexDigitVal c with
  | some v => if v < radix then some v else none
  | none => none

/-- JS `parseInt(str)` with no radix argument: skip leading whitespace, an
optional sign, switch to hex on a `0x`/`0X` head, then read leading digits;
`none` embeds NaN (no digits at all). -/
def jsParseInt (s : String) : Option Int :=
  let l := s.data.dropWhile isJsWhitespace
  let sgnRest : Int × List Char :=
    match l with
    | '-' :: r => (-1, r)
    | '+' :: r => (1, r)
    | _ => (1, l)
  let radixRest : Nat × List Char :=
    match sgnRest.2 with
    | '0' :: 'x' :: r => (16, r)
    | '0' :: 'X' :: r => (16, r)
    | _ => (10, sgnRest.2)
  let ds := radixRest.2.takeWhile fun c => (digitValRadix radixRest.1 c).isSome
  if ds == [] then none
  else
    some (sgnRest.1 *
      (ds.foldl (fun a c => a * radixRest.1 + (digitValRadix radixRest.1 c).getD 0) 0 : Nat))

/-- `parseInt(v) || null` on an optional source value: an absent value gives
`parseInt(undefined) = NaN`, and both NaN and the falsy number `0` fall
through `||` to `null`. -/
def parseIntOrNull (v : Option String) : Option Int :=
  match v with
  | none => none
  | some s =>
    match jsParseInt s with
    | none => none
    | some n => if n = 0 then none else some n

/-- JS `a || b` on optional strings: `undefined` and the falsy empty string
fall through to the right operand. -/
def jsOrStr (a b : Option String) : Option String :=
  match a with
  | none => b
  | some s => if s = "" then b else some s

/-- JS `toLowerCase` (ASCII). -/
def jsToLower (s : String) : String :=
  String.mk (s.data.map Char.toLower)

/-! ## Metadata Prober (`ffprobe`, source lines 322-376) -/

/-- Tags object of the probed file, keys already lower-cased by
`cX.keysToLower`; every value is the JS string of the tag. -/
structure FfTags where
  title : Option String
  name : Option String
  album : Option String
  artist : Option String
  albumartist : Option String
  album_artist : Option String
  composer : Option String
  year : Option String
  date : Option String
  genre : Option String
deriving DecidableEq, Repr

/-- Tags default: `f.tags ? ... : {}`. -/
def FfTags.empty : FfTags :=
  ⟨none, none, none, none, none, none, none, none, none, none⟩

/-- First selected audio stream as parsed from the probe JSON, keys
lower-cased; values are the JS string of each field. -/
structure FfStream where
  codec_name : Option String
  sample_rate : Option String
  bits_per_raw_sample : Option String
  channels : Option String
  duration : Option String
deriving DecidableEq, Repr

/-- Format section as parsed from the probe JSON, keys lower-cased. -/
structure FfFormat where
  format_name : Option String
  size : Option String
  bit_rate : Option String
  tags : Option FfTags
deriving DecidableEq, Repr

/-- Whole parsed probe output (`cX.tryJsonParse` result). -/
structure FfInfo where
  streams : List FfStream
  format : Option FfFormat
deriving DecidableEq, Repr

/-- Normalized track metadata record built at source lines 355-369. -/
structure TrackRecord where
  codec : Option String
  format : Option String
  size : Option Int
  bit_rate : Option Int
  sample_rate : Option Int
  bit_depth : Option Int
  channels : Option Int
  duration : Option Int
  title : Option String
  album : Option String
  artist : Option String
  year : Option Int
  genre : Option String
deriving DecidableEq, Repr

/-- Field extraction of `ffprobe` (source lines 348-369). A `null`
`format_name` makes `cX.toLower(...,null).split(',')` throw inside the
`try`, re-thrown at line 371, embedded as `.error ()`. `dateYear` is the JS
`Date` collaborator: the four-digit year of a parsed date string, `none`
for an invalid date; a year of `0` is falsy and also folds to `null`. -/
def extractTrackRecord (dateYear : String → Option Int) (s : FfStream) (f : FfFormat) :
    Except Unit TrackRecord :=
  match f.format_name with
  | none => .error ()
  | some fn =>
    let t := f.tags.getD FfTags.empty
    .ok {
      codec := s.codec_name.map jsToLower
      format := some (String.mk (((splitChar ',' (jsToLower fn).data []).headD [])))
      size := parseIntOrNull f.size
      bit_rate := parseIntOrNull f.bit_rate
      sample_rate := parseIntOrNull s.sample_rate
      bit_depth := parseIntOrNull s.bits_per_raw_sample
      channels := parseIntOrNull s.channels
      duration := parseIntOrNull s.duration
      title := jsOrStr t.title (jsOrStr t.name none)
      album := jsOrStr t.album none
      artist := jsOrStr t.artist (jsOrStr t.albumartist
        (jsOrStr t.album_artist (jsOrStr t.composer none)))
      year :=
        match jsOrStr t.year (jsOrStr t.date none) with
        | none => none
        | some ds =>
          match dateYear ds with
          | none => none
          | some y => if y = 0 then none else some y
      genre := jsOrStr t.genre none }

/-- C10: in every `TrackRecord` the extraction returns, each of the six
numeric fields whose source value parses to the integer `0` is `null` —
folded by `|| null` exactly like a parse failure (NaN). -/
theorem c10_zero_numeric_fields_fold_to_null (dy : String → Option Int)
    (s : FfStream) (f : FfFormat) (r : TrackRecord)
    (h : extractTrackRecord dy s f = .ok r) :
    (∀ v, f.size = some v → (jsParseInt v = some 0 ∨ jsParseInt v = none) →
      r.size = none)
    ∧ (∀ v, f.bit_rate = some v → (jsParseInt v = some 0 ∨ jsParseInt v = none) →
      r.bit_rate = none)
    ∧ (∀ v, s.sample_rate = some v → (jsParseInt v = some 0 ∨ jsParseInt v = none) →
      r.sample_rate = none)
    ∧ (∀ v, s.bits_per_raw_sample = some v → (jsParseInt v = some 0 ∨ jsParseInt v = none) →
      r.bit_depth = none)
    ∧ (∀ v, s.channels = some v → (jsParseInt v = some 0 ∨ jsParseInt v = none) →
      r.channels = none)
    ∧ (∀ v, s.duration = some v → (jsParseInt v = some 0 ∨ jsParseInt v = none) →
      r.duration = none) := by
  cases hf : f.format_name with
  | none => simp [extractTrackRecord, hf] at h
  | some fn =>
    simp only [extractTrackRecord, hf, Except.ok.injEq] at h
    refine ⟨?_, ?_, ?_, ?_, ?_, ?_⟩ <;>
      (intro v hv hz
       rcases hz with hz | hz <;>
         simp [← h, parseIntOrNull, hv, hz])

/-- Witness stream for C10: every numeric source value is the string `"0"`. -/
def zeroStream : FfStream :=
  { codec_name := some "flac", sample_rate := some "0", bits_per_raw_sample := some "0"
    channels := some "0", duration := some "0" }

/-- Witness format for C10. -/
def zeroFormat : FfFormat :=
  { format_name := some "flac", size := some "0", bit_rate := some "0", tags := none }

/-- Witness for C10: on a probe result whose numeric values are all `"0"`
(each parses to the integer 0) the extraction succeeds and returns `null`
for all six numeric fields. -/
theorem c10_zero_numeric_fields_fold_to_null_witness :
    ∃ r, extractTrackRecord (fun _ => none) zeroStream zeroFormat = .ok r
      ∧ r.size = none ∧ r.bit_rate = none ∧ r.sample_rate = none
      ∧ r.bit_depth = none ∧ r.channels = none ∧ r.duration = none := by
  refine ⟨_, rfl, ?_⟩
  have hall := c10_zero_numeric_fields_fold_to_null (fun _ => none)
    zeroStream zeroFormat _ rfl
  exact ⟨hall.1 "0" rfl (Or.inl rfl), hall.2.1 "0" rfl (Or.inl rfl),
    hall.2.2.1 "0" rfl (Or.inl rfl), hall.2.2.2.1 "0" rfl (Or.inl rfl),
    hall.2.2.2.2.1 "0" rfl (Or.inl rfl), hall.2.2.2.2.2 "0" rfl (Or.inl rfl)⟩

/-! ## `getUriDetails` -/

/-- The fixed FolderRecord for the root (source lines 158-166). -/
structure FolderRecord where
  uri : String
  type : String
  title : String
  libraryPath : String
  contents : List String
deriving DecidableEq, Repr

/-- The record literal returned for path `/`. -/
def rootRecord : FolderRecord :=
  { uri := "file:/", type := "folder", title := "Local", libraryPath := "/",
    contents := [] }

/-- A successful detail lookup: the probed record with `contents` (the
path) and `uri` (canonical form) attached (source lines 167-170). -/
structure TrackDetails where
  record : TrackRecord
  contents : String
  uri : String
deriving DecidableEq, Repr

/-- Outcome of `getUriDetails`. -/
inductive DetailsResult
  | folder (r : FolderRecord)
  | track (t : TrackDetails)
  | rejectedESEQ (handling : String)
deriving DecidableEq, Repr

/-- Remediation guidance attached by `getUriDetails` (source line 172). -/
def getUriDetailsGuidance : String := "call canPlayUri() before getUriDetails()"

/-- `getUriDetails(uri)` (source lines 155-174): decode the uri to a path;
the root path `/` answers with the fixed FolderRecord without probing;
otherwise the full prober runs (embedded as the `probe` collaborator) and
its record gets `contents` and `uri` attached; every throw anywhere in the
`try` block is wrapped with the guidance and the `ESEQ` code. -/
def getUriDetails (probe : String → Except Unit TrackRecord) (uri : String) :
    DetailsResult :=
  match toPath uri with
  | .error _ => .rejectedESEQ getUriDetailsGuidance
  | .ok p =>
    if p = "/" then .folder rootRecord
    else
      match probe p with
      | .error _ => .rejectedESEQ getUriDetailsGuidance
      | .ok r =>
        match toUri p with
        | .error _ => .rejectedESEQ getUriDetailsGuidance
        | .ok u => .track ⟨r, p, u⟩

/-- A prober that fails on every path (e.g. the external tool rejects a
non-media file). -/
def probeAlwaysFails : String → Except Unit TrackRecord := fun _ => .error ()

/-- C7: every failure of `getUriDetails` — a codec throw or a probe
failure, in particular on a path with a non-media extension — is an `ESEQ`
rejection carrying the guidance to call the existence check first; and
`getUriDetails "file:/"` resolves to the fixed FolderRecord
(`type:"folder"`, `contents:[]`) for every prober, hence without probing. -/
theorem c7_getUriDetails_contract (probe : String → Except Unit TrackRecord)
    (uri : String) :
    ((∃ e, toPath uri = .error e) →
      getUriDetails probe uri = .rejectedESEQ getUriDetailsGuidance)
    ∧ (∀ p, toPath uri = .ok p → p ≠ "/" → probe p = .error () →
      getUriDetails probe uri = .rejectedESEQ getUriDetailsGuidance)
    ∧ getUriDetails probe "file:/" = .folder rootRecord
    ∧ rootRecord.type = "folder" ∧ rootRecord.contents = [] := by
  refine ⟨?_, ?_, rfl, rfl, rfl⟩
  · rintro ⟨e, he⟩
    simp [getUriDetails, he]
  · intro p hp hne hprobe
    simp [getUriDetails, hp, hne, hprobe]

/-- Witness for C7: with an always-failing prober, the `.txt` path rejects
with the `ESEQ` guidance, and the root uri still resolves to the
FolderRecord. -/
theorem c7_getUriDetails_contract_witness :
    getUriDetails probeAlwaysFails "/notes.txt" = .rejectedESEQ getUriDetailsGuidance
    ∧ getUriDetails probeAlwaysFails "file:/" = .folder rootRecord := by
  refine ⟨?_, ?_⟩
  · exact (c7_getUriDetails_contract probeAlwaysFails "/notes.txt").2.1
      "/notes.txt" rfl (by decide) rfl
  · exact (c7_getUriDetails_contract probeAlwaysFails "file:/").2.2.1

/-! ## ProbeCache (source lines 281-318) -/

/-- Delay of the cache-clearing timer. `setTimeout(clearFFprobeCache)` at
source line 309 passes NO delay argument, which Node clamps to 1 ms — not
the 60 s announced in the comment right above it. -/
def clearDelayMs : Nat := 1

/-- The shared mutable probe-cache state: the memo table plus the single
pending clearing timer (`ffprobe_timeout`), stored as the absolute time the
timer fires. -/
structure ProbeCache where
  cache : List (String × String)
  timerAt : Option Nat
deriving DecidableEq, Repr

/-- Initial state: empty cache, no pending timer. -/
def emptyProbeCache : ProbeCache := ⟨[], none⟩

/-- `ffprobe_cache[path]=json` plus the timer guard (source lines 301-314):
only the first insert of a batch schedules the single clearing timer;
inserts only happen on a cache miss, so a plain cons is the JS assignment. -/
def cacheInsert (st : ProbeCache) (now : Nat) (path json : String) : ProbeCache :=
  { cache := (path, json) :: st.cache
  , timerAt :=
      match st.timerAt with
      | some t => some t
      | none => some (now + clearDelayMs) }

/-- `clearFFprobeCache` firing once its scheduled time is reached (source
lines 309-313): the whole cache is dropped at once and the timer slot is
freed. -/
def cacheFire (st : ProbeCache) (now : Nat) : ProbeCache :=
  match st.timerAt with
  | some t => if t ≤ now then ⟨[], none⟩ else st
  | none => st

/-- C3: the cache IS cleared collectively by a single timer scheduled by
the first insert of a batch (a second insert does not reschedule), but the
timer is scheduled with no delay — Node's 1 ms clamp — so the whole cache
is gone on the next timer tick, 1 ms after the first insert, not 1 minute
later as the claim and the source's own comment state. -/
theorem c3_cache_cleared_next_tick_not_after_a_minute :
    clearDelayMs = 1
    ∧ (cacheInsert emptyProbeCache 0 "/a.mp3" "j1").timerAt = some 1
    ∧ (cacheInsert (cacheInsert emptyProbeCache 0 "/a.mp3" "j1") 0 "/b.mp3" "j2").timerAt
        = some 1
    ∧ (cacheFire (cacheInsert (cacheInsert emptyProbeCache 0 "/a.mp3" "j1") 0
        "/b.mp3" "j2") 1).cache = []
    ∧ clearDelayMs ≠ 60000 := by
  exact ⟨rfl, rfl, rfl, rfl, by decide⟩

/-! ## `ffprobe_raw` and `ffprobe` -/

/-- Outcome of one `cpX.execFileInPromise('ffprobe', ...)` invocation, keyed
by the probed path: the collaborator standing for the external tool. -/
inductive ExecResult
  | success (stdout : String)
  | failure (stderr : Option String)

/-- Errors of `ffprobe_raw`: a codec throw from `toPath` or an exec
failure (which the source leaves uncached and propagates). -/
inductive RawErr
  | codecErr (e : CodecErr)
  | execFail
deriving DecidableEq, Repr

/-- Result of one `ffprobe_raw` call: the settled value, the new cache
state, and whether the external tool was spawned. -/
structure RawResult where
  result : Except RawErr String
  st : ProbeCache
  invoked : Bool

/-- `ffprobe_raw(path)` (source lines 283-318): normalize; serve a cached
path without spawning the tool; otherwise spawn it, cache a success and
schedule the clearing timer if none is pending. -/
def ffprobe_raw (world : String → ExecResult) (st : ProbeCache) (now : Nat)
    (path : String) : RawResult :=
  match toPath path with
  | .error e => ⟨.error (.codecErr e), st, false⟩
  | .ok p =>
    match st.cache.lookup p with
    | some j => ⟨.ok j, st, false⟩
    | none =>
      match world p with
      | .success j => ⟨.ok j, cacheInsert st now p j, true⟩
      | .failure _ => ⟨.error .execFail, st, true⟩

/-- Errors of the full `ffprobe`. -/
inductive FfErr
  | codecErr (e : CodecErr)
  | execFail
  | badJson
  | missingData
  | extractFail
deriving DecidableEq, Repr

/-- `ffprobe(path)` (source lines 322-376): normalize, then ALWAYS spawn
the external tool — the function is in scope of `ffprobe_cache` but never
reads it, which the ignored `_st` parameter mirrors; an exec failure is
wrapped and rethrown; stdout goes through `cX.tryJsonParse` (the `tryParse`
collaborator); missing `streams`/`format` sections are an error; otherwise
the record is extracted. The second component reports whether the external
tool was invoked. -/
def ffprobe (world : String → ExecResult) (tryParse : String → Option FfInfo)
    (dateYear : String → Option Int) (_st : ProbeCache) (path : String) :
    Except FfErr TrackRecord × Bool :=
  match toPath path with
  | .error e => (.error (.codecErr e), false)
  | .ok p =>
    match world p with
    | .failure _ => (.error .execFail, true)
    | .success out =>
      match tryParse out with
      | none => (.error .badJson, true)
      | some info =>
        match info.streams, info.format with
        | s :: _, some f =>
          (match extractTrackRecord dateYear s f with
           | .error _ => .error .extractFail
           | .ok r => .ok r, true)
        | _, _ => (.error .missingData, true)

/-- World for the C4 scenario: one probe-able audio file. -/
def c4World : String → ExecResult :=
  fun p => if p = "/music/a.mp3" then .success "stream index 0" else .failure none

/-- C4: after `ffprobe_raw` has cached the raw output for a path, a second
`ffprobe_raw` in the window is served from the cache without spawning the
tool — but the full prober `ffprobe` never reads `ffprobe_cache` and
spawns the external tool again for the very same path. -/
theorem c4_ffprobe_reinvokes_despite_cache :
    (ffprobe_raw c4World emptyProbeCache 0 "/music/a.mp3").invoked = true
    ∧ (ffprobe_raw c4World emptyProbeCache 0 "/music/a.mp3").st.cache.lookup "/music/a.mp3"
        = some "stream index 0"
    ∧ (ffprobe_raw c4World
        (ffprobe_raw c4World emptyProbeCache 0 "/music/a.mp3").st 5 "/music/a.mp3").invoked
        = false
    ∧ (ffprobe c4World (fun _ => none) (fun _ => none)
        (ffprobe_raw c4World emptyProbeCache 0 "/music/a.mp3").st "/music/a.mp3").2
        = true := by
  exact ⟨rfl, rfl, rfl, rfl⟩

/-! ## Library Scanner (source lines 394-437) -/

/-- Index of the last dot in a character list. -/
def lastDotIdx (l : List Char) : Option Nat :=
  match l.reverse.findIdx? (fun c => c == '.') with
  | none => none
  | some k => some (l.length - 1 - k)

/-- Node `path.extname` (POSIX): the extension of the basename, empty for a
dotfile or a name without a dot. -/
def extname (p : String) : String :=
  let base := ((splitChar '/' p.data []).getLast?).getD []
  match lastDotIdx base with
  | none => ""
  | some 0 => ""
  | some i => String.mk (base.drop i)

/-- `isAudioExtension` (source lines 429-437): `undefined` (`none`) when
the extension is empty or unknown to `fsX.fileExtType` (the collaborator
parameter); otherwise whether the type list mentions audio or video. The
source declares an `includeVideo` parameter but never reads it. -/
def isAudioExtension (fileExtType : String → Option (List String))
    (path : String) (_includeVideo : Bool) : Option Bool :=
  let ext := extname path
  if ext = "" then none
  else
    match fileExtType ext with
    | none => none
    | some types => some (types.contains "audio" || types.contains "video")

/-- The promise returned by `ffprobe_supported` as the scan callback sees
it: a pending promise resolving to the cleaned path or to `undefined`, or
an already-rejected promise (the `toPath` throw). -/
inductive SupProm
  | resolves (v : Option String)
  | rejectedTypeErr
deriving DecidableEq, Repr

/-- JS `String.prototype.includes`. -/
def strIncludes (s sub : String) : Bool :=
  (List.range (s.data.length + 1)).any fun i =>
    (s.data.drop i).take sub.data.length == sub.data

/-- `ffprobe_supported(path)` (source lines 263-279). A `toPath` throw
returns an already-rejected promise. The body then evaluates the free
identifier `timeout` at line 274; no such variable is declared anywhere in
the module (only `ffprobe_timeout` and the `timeout` parameters of the two
other probe functions), so under `'use strict'` the call throws a
ReferenceError unless the host process happens to define a global named
`timeout` — the `timeoutGlobal` parameter stands for that global. When it
exists, the promise settles to the cleaned path when the raw output
mentions `index`, and to `undefined` on a miss or an exec failure. -/
def ffprobe_supported (timeoutGlobal : Option Nat) (world : String → ExecResult)
    (path : String) : Except Unit SupProm :=
  match toPath path with
  | .error _ => .ok .rejectedTypeErr
  | .ok p =>
    match timeoutGlobal with
    | none => .error ()
    | some _ =>
      .ok (.resolves
        (match world p with
         | .success out => if strIncludes out "index" then some p else none
         | .failure _ => none))

/-- What one visit of the scan's per-file callback does. -/
inductive ScanAction
  | skippedNonAudio
  | caughtError
  | pushed (v : SupProm)
deriving DecidableEq, Repr

/-- The per-file callback `addAudioFile` (source lines 401-414): skip when
the extension is definitely non-audio; call `ffprobe_supported`; the
returned promise object is truthy, so line 408 pushes the promise itself —
`prepend` (`'file:'`) is never applied and the promise is never awaited; a
synchronous throw is caught and logged, pushing nothing. -/
def addAudioFile (timeoutGlobal : Option Nat) (world : String → ExecResult)
    (fileExtType : String → Option (List String)) (includeVideo : Bool)
    (path : String) : ScanAction :=
  if isAudioExtension fileExtType path includeVideo = some false then .skippedNonAudio
  else
    match ffprobe_supported timeoutGlobal world path with
    | .error _ => .caughtError
    | .ok prom => .pushed prom

/-- `ffprobe_scan` (source lines 394-418) restricted to the values that end
up in the shared collection, given the files the walker visits. -/
def ffprobe_scan (timeoutGlobal : Option Nat) (world : String → ExecResult)
    (fileExtType : String → Option (List String)) (includeVideo : Bool)
    (files : List String) : List SupProm :=
  files.filterMap fun p =>
    match addAudioFile timeoutGlobal world fileExtType includeVideo p with
    | .pushed v => some v
    | _ => none

/-- Extension table for the C2 scenario. -/
def sampleExtType : String → Option (List String) :=
  fun e =>
    if e = ".mp3" then some ["audio"]
    else if e = ".txt" then some ["text"]
    else none

/-- External probe for the C2 scenario: the `.mp3` has a valid audio
stream (its JSON output mentions `index`). -/
def sampleWorld : String → ExecResult :=
  fun p => if p = "/music/song.mp3" then .success "codec stream index 0" else .failure none

/-- C2: scanning a root holding one valid `.mp3` and one `.txt` never makes
the collection contain the `.mp3`'s URI. In the actual environment (no
global `timeout`) the callback crashes and is caught per-file, so nothing
at all is pushed; even granting such a global, the single pushed entry is
the unresolved promise of the plain path — and the path's URI would be
`file:%2F...`, not the path. -/
theorem c2_scan_never_appends_the_uri :
    ffprobe_scan none sampleWorld sampleExtType false
      ["/music/song.mp3", "/music/readme.txt"] = []
    ∧ addAudioFile none sampleWorld sampleExtType false "/music/song.mp3" = .caughtError
    ∧ addAudioFile none sampleWorld sampleExtType false "/music/readme.txt"
        = .skippedNonAudio
    ∧ ffprobe_scan (some 100) sampleWorld sampleExtType false
        ["/music/song.mp3", "/music/readme.txt"]
        = [.resolves (some "/music/song.mp3")]
    ∧ toUri "/music/song.mp3" = .ok "file:%2Fmusic%2Fsong.mp3" := by
  exact ⟨rfl, rfl, rfl, rfl, rfl⟩

/-! ## `getUriList` (source lines 201-222) -/

/-- What one `getUriList` call returns: the (memoized) scan collection or a
fresh plain empty array. -/
inductive UriListResult
  | scanned (l : List SupProm)
  | staticEmpty
deriving DecidableEq, Repr

/-- Per-instance state: the memoized `uriList` and how many times the
"no paths" note has been logged. -/
structure LFState where
  uriList : Option (List SupProm)
  noteCount : Nat
deriving DecidableEq, Repr

/-- The `settings` dependency. -/
structure ScanSettings where
  paths : Option (List String)
  includeVideo : Bool

/-- `getUriList()` (source lines 209-222): return the memo when set; with
non-empty configured paths, scan (the walker collaborator `walkFiles`
lists the files under the roots) and memoize; otherwise log the note and
return a fresh `[]` — the note is logged again on EVERY such call. -/
def getUriList (walkFiles : List String → List String) (timeoutGlobal : Option Nat)
    (world : String → ExecResult) (fileExtType : String → Option (List String))
    (settings : ScanSettings) (st : LFState) : UriListResult × LFState :=
  match st.uriList with
  | some l => (.scanned l, st)
  | none =>
    match settings.paths with
    | some ps =>
      if ps ≠ [] then
        let l := ffprobe_scan timeoutGlobal world fileExtType settings.includeVideo
          (walkFiles ps)
        (.scanned l, { st with uriList := some l })
      else (.staticEmpty, { st with noteCount := st.noteCount + 1 })
    | none => (.staticEmpty, { st with noteCount := st.noteCount + 1 })

/-- No configured paths. -/
def noPathSettings : ScanSettings := ⟨none, false⟩

/-- Trivial walker for the C6 scenario. -/
def trivialWalk : List String → List String := fun _ => []

/-- Trivial probe world for the C6 scenario. -/
def trivialWorld : String → ExecResult := fun _ => .failure none

/-- Trivial extension table for the C6 scenario. -/
def trivialExtType : String → Option (List String) := fun _ => none

/-- C6 counterexample: two `getUriList` calls on a fresh instance with no
configured paths log the "no paths" note twice — not at most once — even
though both calls do return the empty static list. -/
theorem c6_two_calls_log_two_notes :
    (getUriList trivialWalk none trivialWorld trivialExtType noPathSettings
      ⟨none, 0⟩).1 = .staticEmpty
    ∧ (getUriList trivialWalk none trivialWorld trivialExtType noPathSettings
        ((getUriList trivialWalk none trivialWorld trivialExtType noPathSettings
          ⟨none, 0⟩).2)).1 = .staticEmpty
    ∧ (getUriList trivialWalk none trivialWorld trivialExtType noPathSettings
        ((getUriList trivialWalk none trivialWorld trivialExtType noPathSettings
          ⟨none, 0⟩).2)).2.noteCount = 2
    ∧ ¬ (getUriList trivialWalk none trivialWorld trivialExtType noPathSettings
        ((getUriList trivialWalk none trivialWorld trivialExtType noPathSettings
          ⟨none, 0⟩).2)).2.noteCount ≤ 1 := by
  exact ⟨rfl, rfl, rfl, by decide⟩

/-- C6 amended: two `getUriList` calls without configured paths return two
empty, equal, non-growable lists, and log exactly one "no paths" note per
call (so two across the two calls). -/
theorem c6_amended_one_note_per_call (walkFiles : List String → List String)
    (timeoutGlobal : Option Nat) (world : String → ExecResult)
    (fileExtType : String → Option (List String)) (settings : ScanSettings)
    (st : LFState) (hmemo : st.uriList = none)
    (hpaths : settings.paths = none ∨ settings.paths = some []) :
    (getUriList walkFiles timeoutGlobal world fileExtType settings st).1 = .staticEmpty
    ∧ (getUriList walkFiles timeoutGlobal world fileExtType settings
        ((getUriList walkFiles timeoutGlobal world fileExtType settings st).2)).1
        = .staticEmpty
    ∧ (getUriList walkFiles timeoutGlobal world fileExtType settings
        ((getUriList walkFiles timeoutGlobal world fileExtType settings st).2)).2.noteCount
        = st.noteCount + 2 := by
  rcases hpaths with h | h <;> simp [getUriList, hmemo, h]

/-- Witness for the amended C6 statement at a concrete fresh instance. -/
theorem c6_amended_one_note_per_call_witness :
    (getUriList trivialWalk none trivialWorld trivialExtType noPathSettings
      ⟨none, 0⟩).1 = .staticEmpty
    ∧ (getUriList trivialWalk none trivialWorld trivialExtType noPathSettings
        ((getUriList trivialWalk none trivialWorld trivialExtType noPathSettings
          ⟨none, 0⟩).2)).1 = .staticEmpty
    ∧ (getUriList trivialWalk none trivialWorld trivialExtType noPathSettings
        ((getUriList trivialWalk none trivialWorld trivialExtType noPathSettings
          ⟨none, 0⟩).2)).2.noteCount = 0 + 2 := by
  exact c6_amended_one_note_per_call trivialWalk none trivialWorld trivialExtType
    noPathSettings ⟨none, 0⟩ rfl (Or.inl rfl)
